import Mathlib

/-
Formal model of the signature/technician inference core of the
sd_ticket_signature_analyzer repository, together with proofs about it.

Embedding conventions:
* Python `str` values are Lean `String`s (ASCII payloads; the character
  classes of the regexes and `str` methods are modelled over ASCII, which
  covers every string the analyzed code manipulates).
* Python floats are modelled as exact rationals (`ℚ`); the threshold
  literals (0.02, 0.65, ...) become the corresponding rationals.
* Fallible steps (PIL decoding, the OCR backend, the cloud vision call)
  are passed in as `Option`/`Except` values, and functions that can raise
  return `Except`.
-/

namespace SDTicket

/-- Python `\s` / `str.isspace` over ASCII: space, tab, newline, vertical
tab, form feed, carriage return. -/
def pyIsSpace (c : Char) : Bool :=
  c == ' ' || c == '\t' || c == '\n' || c == '\x0b' || c == '\x0c' || c == '\r'

/-- ASCII letter, i.e. what `[A-Za-z]` (and `[A-Z]`/`[a-z]` under
`re.IGNORECASE`) matches on the ASCII inputs in play. -/
def isAsciiLetter (c : Char) : Bool :=
  ('A' ≤ c && c ≤ 'Z') || ('a' ≤ c && c ≤ 'z')

/-- Python `\w` over ASCII: letters, digits and underscore. -/
def isWordChar (c : Char) : Bool :=
  isAsciiLetter c || c.isDigit || c == '_'

/-- Python `str.strip()` on a character list: drop leading and trailing
whitespace. -/
def pyStripChars (l : List Char) : List Char :=
  ((l.dropWhile pyIsSpace).reverse.dropWhile pyIsSpace).reverse

/-- Python `str.strip()`. -/
def pyStrip (s : String) : String :=
  ⟨pyStripChars s.data⟩

/-- Python `str.lower()` (ASCII). -/
def pyLower (s : String) : String :=
  ⟨s.data.map Char.toLower⟩

/-- `OCR_CORRECTIONS` from `src/tech_names.py`: the manual-correction
table for common OCR errors, as an association list in source order. -/
def OCR_CORRECTIONS : List (String × String) :=
  [("Dgrtey B", "Darren B"),
   ("Nigh F", "Nick F"),
   ("Aap B", "Anthony B"),
   ("Chugk B", "Chuck D"),
   ("Chugk D", "Chuck D"),
   ("Koby A", "Koby H"),
   ("Koby I", "Koby H"),
   ("Koby D", "Koby H"),
   ("Darren P", "Darren B"),
   ("Darren D", "Darren B"),
   ("Chuck B", "Chuck D"),
   ("Chance A", "Chance H"),
   ("Chance I", "Chance H")]

/-- `KNOWN_TECHS` from `src/tech_names.py`: the canonical technician
registry, in source order. -/
def KNOWN_TECHS : List String :=
  ["Ali Z", "Anthony A", "Anthony B", "Austin L", "Bryce K", "Chance H",
   "Chris S", "Chuck D", "Darren B", "Darrin S", "Derek F", "Jimmy Y",
   "Kelvin B", "Koby H", "Ky S", "Lucas H", "Mark F", "Michael M",
   "Mike F", "Nick F", "Rory T", "Shannon G", "Travis M"]

/-- Length of the common prefix of two character lists. -/
def commonPrefixLen : List Char → List Char → ℕ
  | x :: xs, y :: ys => if x = y then commonPrefixLen xs ys + 1 else 0
  | _, _ => 0

/-- Length of the matching run of `a` starting at `i` against `b`
starting at `j`. -/
def subMatchLen (a b : List Char) (i j : ℕ) : ℕ :=
  commonPrefixLen (a.drop i) (b.drop j)

/-- `difflib.SequenceMatcher.find_longest_match` over the whole strings
(no junk: the inputs are far below the autojunk threshold of 200
characters). Returns `(i, j, size)`: the longest common substring, and
among equally long ones the lexicographically least `(i, j)`, which is
exactly the block difflib's scan reports first. -/
def longestMatch (a b : List Char) : ℕ × ℕ × ℕ :=
  (List.range a.length).foldl (fun acc i =>
    (List.range b.length).foldl (fun acc j =>
      let k := subMatchLen a b i j
      if acc.2.2 < k then (i, j, k) else acc) acc) (0, 0, 0)

theorem foldl_preserve {α β : Type} (P : β → Prop) (f : β → α → β) :
    ∀ (l : List α) (init : β), P init → (∀ b x, x ∈ l → P b → P (f b x)) →
      P (l.foldl f init)
  | [], _, h, _ => h
  | a :: l, init, h, hstep => by
    apply foldl_preserve P f l (f init a)
    · exact hstep init a (List.mem_cons_self a l) h
    · intro b x hx hb
      exact hstep b x (List.mem_cons_of_mem a hx) hb

theorem longestMatch_inv (a b : List Char) :
    (longestMatch a b).2.2 ≠ 0 →
      (longestMatch a b).1 < a.length ∧ (longestMatch a b).2.1 < b.length := by
  unfold longestMatch
  apply foldl_preserve
    (P := fun t : ℕ × ℕ × ℕ => t.2.2 ≠ 0 → t.1 < a.length ∧ t.2.1 < b.length)
  · intro h; exact absurd rfl h
  · intro acc i hi hacc
    apply foldl_preserve
      (P := fun t : ℕ × ℕ × ℕ => t.2.2 ≠ 0 → t.1 < a.length ∧ t.2.1 < b.length)
    · exact hacc
    · intro acc' j hj hacc'
      by_cases hlt : acc'.2.2 < subMatchLen a b i j
      · simp only [hlt, if_pos]
        intro _
        exact ⟨List.mem_range.mp hi, List.mem_range.mp hj⟩
      · simp only [hlt, if_neg, ite_false]
        exact hacc'

/-- Total size of the matching blocks of
`difflib.SequenceMatcher.get_matching_blocks`: recursively take the
longest match and recurse on the pieces to its left and right. -/
def matchingTotal (a b : List Char) : ℕ :=
  if _h : (longestMatch a b).2.2 = 0 then 0
  else
    matchingTotal (a.take (longestMatch a b).1) (b.take (longestMatch a b).2.1) +
      (longestMatch a b).2.2 +
      matchingTotal (a.drop ((longestMatch a b).1 + (longestMatch a b).2.2))
        (b.drop ((longestMatch a b).2.1 + (longestMatch a b).2.2))
termination_by a.length + b.length
decreasing_by
  · have hb := longestMatch_inv a b _h
    simp only [List.length_take]
    omega
  · have hb := longestMatch_inv a b _h
    have hk : (longestMatch a b).2.2 ≠ 0 := _h
    simp only [List.length_drop]
    omega

/-- `difflib.SequenceMatcher.ratio()`: `2*M/T`, and `1.0` when both
strings are empty (`T = 0`). -/
def ratioOf (a b : List Char) : ℚ :=
  if a.length + b.length = 0 then 1
  else 2 * (matchingTotal a b : ℚ) / (a.length + b.length : ℕ)

/-- `similarity` from `src/tech_names.py`:
`SequenceMatcher(None, a.lower(), b.lower()).ratio()`. -/
def similarity (a b : String) : ℚ :=
  ratioOf (pyLower a).data (pyLower b).data

/-- `normalize_tech_name` from `src/tech_names.py`. `None`/empty input
gives `None`; after stripping, the manual-correction table is consulted
first, then exact membership in `KNOWN_TECHS`, then the best fuzzy match
(strict improvement over the running best, accepted iff the best score
is at least 0.65), else `None`. -/
def normalize_tech_name : Option String → Option String
  | none => none
  | some name0 =>
    if name0 = "" then none
    else
      let name := pyStrip name0
      match OCR_CORRECTIONS.lookup name with
      | some v => some v
      | none =>
        if name ∈ KNOWN_TECHS then some name
        else
          let best := KNOWN_TECHS.foldl (fun (acc : Option String × ℚ) known =>
            let score := similarity name known
            if acc.2 < score then (some known, score) else acc)
            ((none : Option String), (0 : ℚ))
          if (65 : ℚ) / 100 ≤ best.2 then best.1 else none

/-- First cleanup line of `_extract_technician`
(`src/ticket_analyzer.py:144`): `text.replace("|", "I").replace("/", "").replace("\\", "")`. -/
def cleanStep1 (l : List Char) : List Char :=
  (l.map (fun c => if c = '|' then 'I' else c)).filter
    (fun c => !(c == '/' || c == '\\'))

/-- Second cleanup line (`ticket_analyzer.py:145`):
`re.sub(r'[^\w\s]', ' ', text)`. -/
def cleanStep2 (l : List Char) : List Char :=
  l.map (fun c => if isWordChar c || pyIsSpace c then c else ' ')

/-- Worker for `re.sub(r'\s+', ' ', text)`: `inRun` records whether the
previous character was whitespace; each maximal whitespace run emits a
single space at its first character. -/
def collapseWsAux : Bool → List Char → List Char
  | _, [] => []
  | inRun, c :: rest =>
    if pyIsSpace c then
      if inRun then collapseWsAux true rest
      else ' ' :: collapseWsAux true rest
    else c :: collapseWsAux false rest

/-- Third cleanup line (`ticket_analyzer.py:146`):
`re.sub(r'\s+', ' ', text)` — every maximal whitespace run becomes one
space. -/
def collapseWs (l : List Char) : List Char :=
  collapseWsAux false l

/-- The whole OCR-artifact cleanup performed by `_extract_technician`
before pattern matching. -/
def cleanText (l : List Char) : List Char :=
  collapseWs (cleanStep2 (cleanStep1 l))

/-- `re.search`-style scan: try the matcher at every start position,
leftmost success wins (the empty suffix is also tried, as `re.search`
does). -/
def searchPat {α : Type} (f : List Char → Option α) : List Char → Option α
  | [] => f []
  | c :: rest =>
    match f (c :: rest) with
    | some r => some r
    | none => searchPat f rest

/-- First alternative of a sequence of attempts, in priority order. -/
def firstSome {α β : Type} (f : α → Option β) : List α → Option β
  | [] => none
  | x :: xs =>
    match f x with
    | some r => some r
    | none => firstSome f xs

/-- Consume the literal `by` of the technician patterns
(case-insensitively, per `re.IGNORECASE`). -/
def matchByPrefix : List Char → Option (List Char)
  | b :: y :: rest =>
    if b.toLower = 'b' ∧ y.toLower = 'y' then some rest else none
  | _ => none

/-- Split off a non-empty maximal run of characters satisfying `p`
(the effect of a greedy `X+` class repetition followed by a character the
class cannot match). -/
def spanPlus (p : Char → Bool) (l : List Char) : Option (List Char × List Char) :=
  let s := l.span p
  if s.1.isEmpty then none else some s

/-- Greedy `([A-Z][A-Za-z]+)` at the current position under
`re.IGNORECASE`: the maximal letter run, which must have length ≥ 2. -/
def roleRun (l : List Char) : Option (List Char) :=
  let g := (l.span isAsciiLetter).1
  if 2 ≤ g.length then some g else none

/-- Pattern 1 of `_extract_technician` (`ticket_analyzer.py:149`),
`by\s+([A-Z][a-z]+)\s+([A-Z])\s+(?:Ld\s+)?([A-Z][A-Za-z]+)` with
`re.IGNORECASE`, tried at the current position. Under `IGNORECASE` the
letter classes are case-blind, so group 1 is a maximal letter run of
length ≥ 2, group 2 a single letter followed by whitespace, and group 3 a
letter run of length ≥ 2, optionally preceded by a skipped `Ld` token
(with regex backtracking when taking `Ld` starves group 3). -/
def tryP1At (s : List Char) : Option (List Char × Char × List Char) :=
  match matchByPrefix s with
  | none => none
  | some rest =>
    match spanPlus pyIsSpace rest with
    | none => none
    | some (_, r1) =>
      match spanPlus isAsciiLetter r1 with
      | none => none
      | some (g1, r2) =>
        if g1.length < 2 then none
        else
          match spanPlus pyIsSpace r2 with
          | none => none
          | some (_, r3) =>
            match r3 with
            | [] => none
            | c :: r4 =>
              if isAsciiLetter c then
                match spanPlus pyIsSpace r4 with
                | none => none
                | some (_, r5) =>
                  let afterLd : Option (List Char) :=
                    match r5 with
                    | l :: d :: r7 =>
                      if l.toLower = 'l' ∧ d.toLower = 'd' then
                        (spanPlus pyIsSpace r7).map (·.2)
                      else none
                    | _ => none
                  match afterLd with
                  | some r8 =>
                    match roleRun r8 with
                    | some g3 => some (g1, c, g3)
                    | none => (roleRun r5).map (fun g3 => (g1, c, g3))
                  | none => (roleRun r5).map (fun g3 => (g1, c, g3))
              else none

/-- Pattern 2 of `_extract_technician` (`ticket_analyzer.py:158`),
`by\s+([A-Z][a-z]+)\s+([A-Z])([A-Z][A-Za-z]+)` with `re.IGNORECASE`:
like pattern 1 but the single-letter initial is immediately followed by
the role letters (no space, no `Ld` skipping). -/
def tryP2At (s : List Char) : Option (List Char × Char × List Char) :=
  match matchByPrefix s with
  | none => none
  | some rest =>
    match spanPlus pyIsSpace rest with
    | none => none
    | some (_, r1) =>
      match spanPlus isAsciiLetter r1 with
      | none => none
      | some (g1, r2) =>
        if g1.length < 2 then none
        else
          match spanPlus pyIsSpace r2 with
          | none => none
          | some (_, r3) =>
            match r3 with
            | [] => none
            | c :: r4 =>
              if isAsciiLetter c then
                (roleRun r4).map (fun g3 => (g1, c, g3))
              else none

/-- Pattern 3 of `_extract_technician` (`ticket_analyzer.py:167`),
`by\s+([A-Z][a-z]+)\s+([A-Z])` with `re.IGNORECASE`: name run plus a
single-letter initial, role garbled/absent. -/
def tryP3At (s : List Char) : Option (List Char × Char) :=
  match matchByPrefix s with
  | none => none
  | some rest =>
    match spanPlus pyIsSpace rest with
    | none => none
    | some (_, r1) =>
      match spanPlus isAsciiLetter r1 with
      | none => none
      | some (g1, r2) =>
        if g1.length < 2 then none
        else
          match spanPlus pyIsSpace r2 with
          | none => none
          | some (_, r3) =>
            match r3 with
            | [] => none
            | c :: _ => if isAsciiLetter c then some (g1, c) else none

/-- Python `str.title()` restricted to a single alphabetic word — the
only shape regex group 1 can take: first letter upper-cased, the rest
lower-cased. -/
def pyTitle : List Char → List Char
  | [] => []
  | c :: rest => c.toUpper :: rest.map Char.toLower

/-- `_extract_technician` from `src/ticket_analyzer.py`: clean the OCR
text, then try patterns 1, 2, 3 in order, first match winning; build
`"{first_name.title()} {last_initial.upper()}"` plus the role as
matched (`None` role for pattern 3). -/
def extract_technician (text : String) : Option String × Option String :=
  let t := cleanText text.data
  match searchPat tryP1At t with
  | some (g1, c, g3) =>
    (some ⟨pyTitle g1 ++ [' ', c.toUpper]⟩, some ⟨g3⟩)
  | none =>
    match searchPat tryP2At t with
    | some (g1, c, g3) =>
      (some ⟨pyTitle g1 ++ [' ', c.toUpper]⟩, some ⟨g3⟩)
    | none =>
      match searchPat tryP3At t with
      | some (g1, c) => (some ⟨pyTitle g1 ++ [' ', c.toUpper]⟩, none)
      | none => (none, none)

/-- `re.search(r"#(\d{5,7})", text)` at one position: a `#` followed by
at least 5 digits; the greedy bounded repetition captures at most the
first 7 of the digit run. -/
def tryTicketAt : List Char → Option (List Char)
  | '#' :: rest =>
    let ds := (rest.span Char.isDigit).1
    if 5 ≤ ds.length then some (ds.take 7) else none
  | _ => none

/-- `_extract_ticket_number` from `src/ticket_analyzer.py`. -/
def extract_ticket_number (text : String) : Option String :=
  (searchPat tryTicketAt text.data).map (fun ds => ⟨ds⟩)

/-- Greedy `\d{1,2}`: both alternatives in the order the regex engine
tries them (two digits first). -/
def tryNum12 : List Char → List (List Char × List Char)
  | a :: b :: rest =>
    if a.isDigit then
      if b.isDigit then [([a, b], rest), ([a], b :: rest)]
      else [([a], b :: rest)]
    else []
  | [a] => if a.isDigit then [([a], [])] else []
  | [] => []

/-- `re.search(r"(\d{1,2}/\d{1,2}/\d{2})", text)` at one position, with
the engine's greedy backtracking over the two `\d{1,2}` groups. -/
def tryDateAt (s : List Char) : Option (List Char) :=
  firstSome (fun md =>
    match md.2 with
    | '/' :: r2 =>
      firstSome (fun dd =>
        match dd.2 with
        | '/' :: y1 :: y2 :: _ =>
          if y1.isDigit && y2.isDigit then
            some (md.1 ++ '/' :: dd.1 ++ '/' :: [y1, y2])
          else none
        | _ => none) (tryNum12 r2)
    | _ => none) (tryNum12 s)

/-- `_extract_date` from `src/ticket_analyzer.py`. -/
def extract_date (text : String) : Option String :=
  (searchPat tryDateAt text.data).map (fun ds => ⟨ds⟩)

/-- A decoded raster image: `pix x y` is the single-channel luminance
value PIL's `convert("L")` produces at column `x`, row `y` (0–255; the
detectors only ever read coordinates inside the image, so the
behaviour of `pix` outside `[0,width) × [0,height)` is irrelevant). -/
structure Img where
  width : ℕ
  height : ℕ
  pix : ℕ → ℕ → ℕ

/-- `PIL.Image.crop((left, top, right, bottom)).getdata()` as a
row-major pixel list. A box with non-positive extent yields the empty
list (the zero-pixel crop PIL produces for `right = left` or
`bottom = top`). -/
def cropPixels (img : Img) (left top right bottom : ℕ) : List ℕ :=
  ((List.range (bottom - top)).map (fun r =>
    (List.range (right - left)).map (fun c => img.pix (left + c) (top + r)))).flatten

/-- Python `int(n * f)` for the percentage factors used in the crop
boxes, with the float multiplication modelled exactly:
`int(n * (num/den)) = ⌊n·num/den⌋`. -/
def pctFloor (n num den : ℕ) : ℕ :=
  n * num / den

/-- Number of pixels darker than the ink threshold
(`sum(1 for p in pixels if p < dark_threshold)`). -/
def darkCount (pixels : List ℕ) (threshold : ℕ) : ℕ :=
  (pixels.filter (fun p => p < threshold)).length

/-- The signature-region pixels of `_detect_signature_universal`
(`src/ticket_analyzer.py:203-216`): box
`(10, int(0.82*height), int(0.45*width), int(0.94*height))`, converted
to grayscale. -/
def localSigPixels (img : Img) : List ℕ :=
  cropPixels img 10 (pctFloor img.height 82 100)
    (pctFloor img.width 45 100) (pctFloor img.height 94 100)

/-- `ink_density = dark_pixels / len(pixels)` for the local detector
(dark threshold 170). -/
def inkDensityLocal (img : Img) : ℚ :=
  (darkCount (localSigPixels img) 170 : ℚ) / ((localSigPixels img).length : ℚ)

/-- `_detect_signature_universal` from `src/ticket_analyzer.py`. The
degenerate vertical box (`sig_bottom <= sig_top`, checked before the
crop) and a legal zero-pixel crop short-circuit to `(false, 0.5)`. A
horizontally inverted box — `int(0.45*width) < 10`, i.e. any image
narrower than 23 px — makes `Image.crop` raise `ValueError` (Pillow
rejects `right < left`), modelled as `Except.error`. Otherwise the ink
density is classified with the 0.02 / 0.025–0.07 / 0.10 thresholds. -/
def detect_signature_universal (img : Img) : Except Unit (Bool × ℚ) :=
  if pctFloor img.height 94 100 ≤ pctFloor img.height 82 100 then .ok (false, 1/2)
  else if pctFloor img.width 45 100 < 10 then .error ()
  else if (localSigPixels img).isEmpty then .ok (false, 1/2)
  else
    let d := inkDensityLocal img
    if d < 2/100 then .ok (false, 92/100)
    else if 2/100 ≤ d ∧ d ≤ 10/100 then
      .ok (true, if 25/1000 ≤ d ∧ d ≤ 7/100 then 88/100 else 72/100)
    else .ok (true, 55/100)

/-- A `{"top": _, "left": _, "width": _, "height": _}` region dict, as
used by `config.Settings`. -/
structure RegionBox where
  left : ℤ
  top : ℤ
  width : ℤ
  height : ℤ

/-- The default `signature_region` of `config.Settings`. -/
def signature_region : RegionBox :=
  ⟨0, 800, 600, 200⟩

/-- The crop box of `VisionAnalyzer._detect_signature`
(`src/vision_analyzer.py:146-159`): `(left, top, left+width, top+height)`
clipped to `max 0` on the near corner and `min (image size)` on the far
corner. -/
def visionSigBox (img : Img) (region : RegionBox) : ℤ × ℤ × ℤ × ℤ :=
  (max 0 region.left, max 0 region.top,
   min (img.width : ℤ) (region.left + region.width),
   min (img.height : ℤ) (region.top + region.height))

/-- The cropped grayscale pixels the vision-variant detector analyzes. -/
def visionSigPixels (img : Img) (region : RegionBox) : List ℕ :=
  cropPixels img (visionSigBox img region).1.toNat
    (visionSigBox img region).2.1.toNat
    (visionSigBox img region).2.2.1.toNat
    (visionSigBox img region).2.2.2.toNat

/-- `ink_density` for the vision-variant detector (dark threshold 180). -/
def inkDensityVision (img : Img) (region : RegionBox) : ℚ :=
  (darkCount (visionSigPixels img region) 180 : ℚ) /
    ((visionSigPixels img region).length : ℚ)

/-- `VisionAnalyzer._check_handwriting_in_region`
(`src/vision_analyzer.py:198-223`): re-run OCR on the cropped region and
return `(true, 0.75)` at the first text block whose OCR confidence is
below 0.8, else `(false, 0.5)`. The block-confidence list returned by
the OCR service is the `blocks` argument (empty when the response has no
annotation). -/
def check_handwriting_in_region (blocks : List ℚ) : Bool × ℚ :=
  if blocks.any (fun conf => conf < 8/10) then (true, 75/100) else (false, 1/2)

/-- `VisionAnalyzer._detect_signature` from `src/vision_analyzer.py`.
When the clipped box is strictly inverted (`right < left` or
`bottom < top` — e.g. any image shorter than the region's top edge),
`Image.crop` raises `ValueError`, modelled as `Except.error`. A legal
zero-pixel crop gives `(false, 0.0)`; otherwise the ink density is
classified with the 0.01 / 0.03–0.10 / 0.20 thresholds, falling back to
the handwriting check above 0.20. -/
def vision_detect_signature (img : Img) (region : RegionBox) (blocks : List ℚ) :
    Except Unit (Bool × ℚ) :=
  if (visionSigBox img region).2.2.1 < (visionSigBox img region).1 ∨
      (visionSigBox img region).2.2.2 < (visionSigBox img region).2.1 then
    .error ()
  else if (visionSigPixels img region).length = 0 then .ok (false, 0)
  else
    let d := inkDensityVision img region
    if 1/100 ≤ d ∧ d ≤ 20/100 then
      .ok (true, if 3/100 ≤ d ∧ d ≤ 10/100 then 9/10 else 7/10)
    else if d < 1/100 then .ok (false, 9/10)
    else .ok (check_handwriting_in_region blocks)

/-- The `TicketAnalysis` dataclass of `src/ticket_analyzer.py`. -/
structure TicketAnalysis where
  technician_name : Option String
  technician_role : Option String
  has_signature : Bool
  signature_confidence : ℚ
  ticket_number : Option String
  ticket_date : Option String
  has_legal_text : Bool
deriving DecidableEq

/-- The exceptions `TicketAnalyzer.analyze` can let escape. -/
inductive AnalyzeError where
  /-- `PIL.Image.open` on undecodable bytes (`ticket_analyzer.py:103` is
  outside every `try`). -/
  | decodeFailure
  /-- `RuntimeError` raised when the Vision response carries an error
  message (`ticket_analyzer.py:70`). -/
  | visionApiFailure
  /-- `AttributeError`: `ticket_analyzer.py:85` calls
  `self._detect_signature`, a method `TicketAnalyzer` does not define. -/
  | missingDetectMethod
  /-- `ValueError` from `Image.crop` on an inverted signature box
  (`ticket_analyzer.py:212`, reached through line 129, which sits
  outside every `try`). -/
  | cropFailure
deriving DecidableEq

/-- `TicketAnalyzer._analyze_local`. `decoded` is the outcome of
`Image.open` on the input bytes (`none` = the decoder raised, which the
function does not catch); `ocrTech` and `ocrHeader` are the outcomes of
the two `pytesseract.image_to_string` calls on the tech-name and header
crops (`Except.error` = the OCR backend raised inside the respective
`try`). The tech-name crop (line 108) always has a well-formed box and
the header crop is inside its own `try`, so neither raises; the
signature detector's crop, however, can raise `ValueError` on narrow
images, and its call at line 129 is outside every `try`, so that
exception propagates. -/
def analyze_local (decoded : Option Img) (ocrTech ocrHeader : Except Unit String) :
    Except AnalyzeError TicketAnalysis :=
  match decoded with
  | none => .error .decodeFailure
  | some img =>
    let tech : Option String × Option String :=
      match ocrTech with
      | .ok text =>
        let e := extract_technician text
        (normalize_tech_name e.1, e.2)
      | .error _ => (none, none)
    let header : Option String × Option String :=
      match ocrHeader with
      | .ok text => (extract_ticket_number text, extract_date text)
      | .error _ => (none, none)
    match detect_signature_universal img with
    | .error _ => .error .cropFailure
    | .ok sig => .ok ⟨tech.1, tech.2, sig.1, sig.2, header.1, header.2, true⟩

/-- `TicketAnalyzer._analyze_with_vision`. `apiResult` is the outcome of
the `document_text_detection` call (`Except.error` when
`response.error.message` is set, which raises `RuntimeError`; `Except.ok
full_text` otherwise). On the success path the function extracts the
technician, ticket number and date from the full text, but then
`ticket_analyzer.py:85` invokes `self._detect_signature(image_bytes,
has_legal)` — `TicketAnalyzer` defines no `_detect_signature` method
(only `_detect_signature_universal`), so every success path raises
`AttributeError` before a `TicketAnalysis` is constructed. -/
def analyze_with_vision (apiResult : Except Unit String) :
    Except AnalyzeError TicketAnalysis :=
  match apiResult with
  | .error _ => .error .visionApiFailure
  | .ok _fullText => .error .missingDetectMethod

/-- `TicketAnalyzer.analyze`: dispatch to the Vision path when the
analyzer was built with `use_vision_api=True` (and hence holds a
client), else to the local path. -/
def analyze (useVisionApi : Bool) (decoded : Option Img)
    (ocrTech ocrHeader : Except Unit String) (apiResult : Except Unit String) :
    Except AnalyzeError TicketAnalysis :=
  if useVisionApi then analyze_with_vision apiResult
  else analyze_local decoded ocrTech ocrHeader

/-- An all-white 30×30 test image (luminance 255 everywhere); its local
signature box is `(10, 24, 13, 28)`: 12 pixels. -/
def whiteImg : Img := ⟨30, 30, fun _ _ => 255⟩

/-- An all-black 30×30 test image (luminance 0 everywhere). -/
def blackImg : Img := ⟨30, 30, fun _ _ => 0⟩

/-- A small all-white 10×10 test image. -/
def smallWhiteImg : Img := ⟨10, 10, fun _ _ => 255⟩

/-- A 600×800 all-white image: against the default `signature_region`
(top 800) its clipped signature crop has zero pixels. -/
def shortImg : Img := ⟨600, 800, fun _ _ => 255⟩

/-- A 100×4 image: `int(4*0.94) = 3 ≤ 3 = int(4*0.82)`, so the local
detector's vertical box is degenerate. -/
def flatImg : Img := ⟨100, 4, fun _ _ => 0⟩

/-- A 20×100 all-black image: `int(20*0.45) = 9 < 10`, so the local
signature crop box is inverted and `Image.crop` raises. -/
def narrowImg : Img := ⟨20, 100, fun _ _ => 0⟩

/-- A 600×600 all-white image: under the default `signature_region` the
clipped box has `bottom = 600 < 800 = top`, so the vision crop raises. -/
def squareImg : Img := ⟨600, 600, fun _ _ => 255⟩

/- ------------------------------------------------------------------ -/
/- Helper lemmas                                                       -/
/- ------------------------------------------------------------------ -/

theorem cropPixels_of_le_left (img : Img) (l t r b : ℕ) (h : r ≤ l) :
    cropPixels img l t r b = [] := by
  unfold cropPixels
  rw [Nat.sub_eq_zero_of_le h]
  simp

theorem cropPixels_of_le_top (img : Img) (l t r b : ℕ) (h : b ≤ t) :
    cropPixels img l t r b = [] := by
  unfold cropPixels
  rw [Nat.sub_eq_zero_of_le h]
  simp

/-- A non-empty local signature crop forces a non-inverted box: when
`int(0.45*width) < 10` the crop is empty in the model. -/
theorem localSigPixels_nonempty_width (img : Img)
    (h : (localSigPixels img).isEmpty = false) :
    ¬ pctFloor img.width 45 100 < 10 := by
  intro hlt
  have he : localSigPixels img = [] :=
    cropPixels_of_le_left img 10 _ _ _ (Nat.le_of_lt hlt)
  rw [he] at h
  simp at h

/-- A vision crop with at least one pixel forces a non-inverted clipped
box. -/
theorem visionSigPixels_nonempty_not_inverted (img : Img) (region : RegionBox)
    (h : (visionSigPixels img region).length ≠ 0) :
    ¬((visionSigBox img region).2.2.1 < (visionSigBox img region).1 ∨
      (visionSigBox img region).2.2.2 < (visionSigBox img region).2.1) := by
  intro hinv
  apply h
  rcases hinv with hx | hy
  · have hle : (visionSigBox img region).2.2.1.toNat ≤
        (visionSigBox img region).1.toNat :=
      Int.toNat_le_toNat (le_of_lt hx)
    unfold visionSigPixels
    rw [cropPixels_of_le_left _ _ _ _ _ hle]
    rfl
  · have hle : (visionSigBox img region).2.2.2.toNat ≤
        (visionSigBox img region).2.1.toNat :=
      Int.toNat_le_toNat (le_of_lt hy)
    unfold visionSigPixels
    rw [cropPixels_of_le_top _ _ _ _ _ hle]
    rfl

/-- The all-white test image has ink density 0, classified as a
confident blank: `(false, 0.92)`. -/
theorem whiteImg_detect :
    detect_signature_universal whiteImg = .ok (false, 92/100) := by
  have h1 : darkCount (localSigPixels whiteImg) 170 = 0 := by decide
  have hd : inkDensityLocal whiteImg < 2/100 := by
    unfold inkDensityLocal
    rw [h1]
    norm_num
  unfold detect_signature_universal
  rw [if_neg (by decide), if_neg (by decide), if_neg (by decide)]
  dsimp only
  rw [if_pos hd]

/-- On the 20-px-wide image the signature crop box is inverted
(`int(20*0.45) = 9 < 10`), so the detector raises. -/
theorem narrowImg_detect :
    detect_signature_universal narrowImg = .error () := by
  unfold detect_signature_universal
  rw [if_neg (by decide), if_pos (by decide)]

theorem searchPat_eq_some {α : Type} (f : List Char → Option α) :
    ∀ (l : List Char) (r : α), searchPat f l = some r → ∃ t, f t = some r
  | [], r, h => ⟨[], h⟩
  | c :: rest, r, h => by
    rw [searchPat] at h
    cases hf : f (c :: rest) with
    | some v => rw [hf] at h; exact ⟨c :: rest, hf.trans h⟩
    | none => rw [hf] at h; exact searchPat_eq_some f rest r h

theorem lookup_mem {l : List (String × String)} :
    ∀ {k v : String}, l.lookup k = some v → (k, v) ∈ l := by
  induction l with
  | nil => intro k v h; simp [List.lookup] at h
  | cons p t ih =>
    intro k v h
    obtain ⟨a, b⟩ := p
    rw [List.lookup] at h
    split at h
    · cases h
      rename_i heq
      have : k = a := by simpa using heq
      subst this
      exact List.mem_cons_self _ _
    · exact List.mem_cons_of_mem _ (ih h)

theorem corrections_values_known :
    ∀ p ∈ OCR_CORRECTIONS, p.2 ∈ KNOWN_TECHS := by decide

theorem fuzzy_fold_mem (name : String) :
    (KNOWN_TECHS.foldl (fun (acc : Option String × ℚ) known =>
        let score := similarity name known
        if acc.2 < score then (some known, score) else acc)
      ((none : Option String), (0 : ℚ))).1 = none ∨
    ∃ t ∈ KNOWN_TECHS,
      (KNOWN_TECHS.foldl (fun (acc : Option String × ℚ) known =>
          let score := similarity name known
          if acc.2 < score then (some known, score) else acc)
        ((none : Option String), (0 : ℚ))).1 = some t := by
  apply foldl_preserve
    (P := fun acc : Option String × ℚ =>
      acc.1 = none ∨ ∃ t ∈ KNOWN_TECHS, acc.1 = some t)
  · exact Or.inl rfl
  · intro b x hx hb
    dsimp only
    split
    · exact Or.inr ⟨x, hx, rfl⟩
    · exact hb

/-- Everything `normalize_tech_name` ever returns as `some` is a member
of `KNOWN_TECHS`: the correction values all are, the exact branch is a
membership test, and the fuzzy fold only ever stores known names. -/
theorem normalize_mem_known (o : Option String) (v : String) :
    normalize_tech_name o = some v → v ∈ KNOWN_TECHS := by
  cases o with
  | none => intro h; cases h
  | some s => ?_
  intro h
  dsimp only [normalize_tech_name] at h
  by_cases h0 : s = ""
  · rw [if_pos h0] at h; cases h
  · rw [if_neg h0] at h
    split at h
    · rename_i w heq
      cases h
      exact corrections_values_known _ (lookup_mem heq)
    · split at h
      · rename_i hk
        cases h
        exact hk
      · split at h
        · rcases fuzzy_fold_mem (pyStrip s) with hnone | ⟨t, ht, hsome⟩
          · rw [hnone] at h; cases h
          · rw [hsome] at h; cases h; exact ht
        · cases h

/- ------------------------------------------------------------------ -/
/- Claim theorems                                                      -/
/- ------------------------------------------------------------------ -/

/-- C2: every analysis result `analyze` actually produces (either
backend variant) has `technician_name` in the known-technician set
whenever it is not `None`. The local variant normalizes every extracted
name; the Vision variant never completes a result (its success path hits
the missing `_detect_signature` method), so the invariant holds for
every produced record. -/
theorem C2_technician_name_closed :
    ∀ (useVisionApi : Bool) (decoded : Option Img)
      (ocrTech ocrHeader apiResult : Except Unit String)
      (a : TicketAnalysis) (n : String),
      analyze useVisionApi decoded ocrTech ocrHeader apiResult = .ok a →
      a.technician_name = some n → n ∈ KNOWN_TECHS := by
  intro uv dec o1 o2 api a n h hn
  cases uv with
  | true => cases api <;> simp [analyze, analyze_with_vision] at h
  | false =>
    cases dec with
    | none => simp [analyze, analyze_local] at h
    | some img =>
      simp only [analyze, Bool.false_eq_true, if_false, analyze_local] at h
      cases hdet : detect_signature_universal img with
      | error e => rw [hdet] at h; cases h
      | ok sig =>
        rw [hdet] at h
        dsimp only at h
        cases h
        cases o1 with
        | error e => dsimp only at hn; cases hn
        | ok text =>
          dsimp only at hn
          exact normalize_mem_known _ _ hn

/-- C2 witness: running the local path on a concrete white image with
OCR text `"by Darren B Technician"` produces `technician_name = "Darren
B"`, and the theorem places it in `KNOWN_TECHS`. -/
theorem C2_technician_name_closed_witness : "Darren B" ∈ KNOWN_TECHS :=
  C2_technician_name_closed false (some whiteImg)
    (.ok "by Darren B Technician") (.error ()) (.error ())
    ⟨some "Darren B", some "Technician", false, 92/100, none, none, true⟩
    "Darren B"
    (by
      simp only [analyze, Bool.false_eq_true, if_false, analyze_local]
      rw [whiteImg_detect]
      dsimp only
      rw [show normalize_tech_name (extract_technician "by Darren B Technician").1 =
          some "Darren B" from by decide,
        show (extract_technician "by Darren B Technician").2 =
          some "Technician" from by decide])
    rfl

/-- C6: for every key/value pair of the manual-correction table,
`normalize_tech_name key = value` — the correction lookup runs before
the exact-canonical test and before fuzzy matching. -/
theorem C6_corrections_priority :
    ∀ p ∈ OCR_CORRECTIONS, normalize_tech_name (some p.1) = some p.2 := by
  decide

/-- C6 witness at the pair `("Koby A", "Koby H")`. -/
theorem C6_corrections_priority_witness :
    normalize_tech_name (some "Koby A") = some "Koby H" :=
  C6_corrections_priority ("Koby A", "Koby H") (by decide)

/-- C7: `normalize_tech_name` is the identity on every canonical name,
hence idempotent on them: no canonical name is remapped by the
correction table or by fuzzy matching. -/
theorem C7_idempotent_on_canonical :
    ∀ x ∈ KNOWN_TECHS,
      normalize_tech_name (some x) = some x ∧
      normalize_tech_name (normalize_tech_name (some x)) =
        normalize_tech_name (some x) := by
  decide

/-- C7 witness at the canonical name `"Ali Z"`. -/
theorem C7_idempotent_on_canonical_witness :
    normalize_tech_name (some "Ali Z") = some "Ali Z" ∧
    normalize_tech_name (normalize_tech_name (some "Ali Z")) =
      normalize_tech_name (some "Ali Z") :=
  C7_idempotent_on_canonical "Ali Z" (by decide)

/-- C10 counterexample: on a 20-px-wide image the local detector does
not return any confidence at all — the inverted signature crop box makes
`Image.crop` raise, so no value of the five-member set (nor any value)
is reported for this input image. -/
theorem C10_counterexample :
    detect_signature_universal narrowImg = .error () :=
  narrowImg_detect

/-- C10 amended: whenever the local detector returns a verdict (its
crop does not raise), the confidence is one of
0.5 / 0.55 / 0.72 / 0.88 / 0.92, hence never below the degenerate-region
sentinel 0.5. -/
theorem C10_local_confidence_range :
    ∀ (img : Img) (verdict : Bool × ℚ),
      detect_signature_universal img = .ok verdict →
      (verdict.2 = 1/2 ∨ verdict.2 = 55/100 ∨ verdict.2 = 72/100 ∨
        verdict.2 = 88/100 ∨ verdict.2 = 92/100) ∧
      1/2 ≤ verdict.2 := by
  intro img verdict h
  unfold detect_signature_universal at h
  split at h
  · cases h; norm_num
  · split at h
    · cases h
    · split at h
      · cases h; norm_num
      · dsimp only at h
        split at h
        · cases h; norm_num
        · split at h
          · cases h
            dsimp only
            split_ifs <;> norm_num
          · cases h; norm_num

/-- C3: the local detector's density policy on any non-degenerate
signature region: `< 0.02 → (false, 0.92)`; inside `[0.025, 0.07] →
(true, 0.88)`; inside `[0.02, 0.10]` but outside `[0.025, 0.07] →
(true, 0.72)`; `> 0.10 → (true, 0.55)`. -/
theorem C3_local_density_policy (img : Img)
    (hbox : ¬ pctFloor img.height 94 100 ≤ pctFloor img.height 82 100)
    (hpix : (localSigPixels img).isEmpty = false) :
    (inkDensityLocal img < 2/100 →
      detect_signature_universal img = .ok (false, 92/100)) ∧
    (25/1000 ≤ inkDensityLocal img ∧ inkDensityLocal img ≤ 7/100 →
      detect_signature_universal img = .ok (true, 88/100)) ∧
    (2/100 ≤ inkDensityLocal img ∧ inkDensityLocal img ≤ 10/100 ∧
        ¬(25/1000 ≤ inkDensityLocal img ∧ inkDensityLocal img ≤ 7/100) →
      detect_signature_universal img = .ok (true, 72/100)) ∧
    (10/100 < inkDensityLocal img →
      detect_signature_universal img = .ok (true, 55/100)) := by
  unfold detect_signature_universal
  rw [if_neg hbox, if_neg (localSigPixels_nonempty_width img hpix),
    if_neg (by simp [hpix])]
  dsimp only
  refine ⟨?_, ?_, ?_, ?_⟩
  · intro h
    rw [if_pos h]
  · rintro ⟨ha, hb⟩
    rw [if_neg (by intro h; linarith),
      if_pos ⟨by linarith, by linarith⟩,
      if_pos ⟨ha, hb⟩]
  · rintro ⟨ha, hb, hc⟩
    rw [if_neg (by intro h; linarith), if_pos ⟨ha, hb⟩, if_neg hc]
  · intro h
    rw [if_neg (by intro hlt; linarith [show (2:ℚ)/100 < 10/100 by norm_num]),
      if_neg (by rintro ⟨-, hle⟩; linarith)]

/-- C3 witness: the all-white image has ink density 0 in its
(non-degenerate) signature region, so the detector reports
`(false, 0.92)`. -/
theorem C3_local_density_policy_witness :
    detect_signature_universal whiteImg = .ok (false, 92/100) := by
  apply (C3_local_density_policy whiteImg (by decide) (by decide)).1
  have h1 : darkCount (localSigPixels whiteImg) 170 = 0 := by decide
  unfold inkDensityLocal
  rw [h1]
  norm_num

/-- C4: the vision-variant detector's density policy on any region with
at least one pixel: `< 0.01 → (false, 0.90)`; inside `[0.03, 0.10] →
(true, 0.90)`; inside `[0.01, 0.20]` but outside `[0.03, 0.10] →
(true, 0.70)`; `> 0.20` falls back to the per-block OCR-confidence
check: `(true, 0.75)` if some block scores below 0.8, else
`(false, 0.50)`. -/
theorem C4_vision_density_policy (img : Img) (region : RegionBox)
    (blocks : List ℚ) (hpix : (visionSigPixels img region).length ≠ 0) :
    (inkDensityVision img region < 1/100 →
      vision_detect_signature img region blocks = .ok (false, 9/10)) ∧
    (3/100 ≤ inkDensityVision img region ∧ inkDensityVision img region ≤ 10/100 →
      vision_detect_signature img region blocks = .ok (true, 9/10)) ∧
    (1/100 ≤ inkDensityVision img region ∧ inkDensityVision img region ≤ 20/100 ∧
        ¬(3/100 ≤ inkDensityVision img region ∧
          inkDensityVision img region ≤ 10/100) →
      vision_detect_signature img region blocks = .ok (true, 7/10)) ∧
    (20/100 < inkDensityVision img region →
      ((∃ conf ∈ blocks, conf < 8/10) →
        vision_detect_signature img region blocks = .ok (true, 75/100)) ∧
      (¬(∃ conf ∈ blocks, conf < 8/10) →
        vision_detect_signature img region blocks = .ok (false, 1/2))) := by
  unfold vision_detect_signature
  rw [if_neg (visionSigPixels_nonempty_not_inverted img region hpix), if_neg hpix]
  dsimp only
  refine ⟨?_, ?_, ?_, ?_⟩
  · intro h
    rw [if_neg (by rintro ⟨hge, -⟩; linarith), if_pos h]
  · rintro ⟨ha, hb⟩
    rw [if_pos ⟨by linarith [show (1:ℚ)/100 < 3/100 by norm_num], by linarith⟩,
      if_pos ⟨ha, hb⟩]
  · rintro ⟨ha, hb, hc⟩
    rw [if_pos ⟨ha, hb⟩, if_neg hc]
  · intro h20
    rw [if_neg (by rintro ⟨-, hle⟩; linarith),
      if_neg (by intro hlt; linarith [show (1:ℚ)/100 < 20/100 by norm_num])]
    unfold check_handwriting_in_region
    constructor
    · rintro ⟨c, hc, hlt⟩
      rw [if_pos]
      rw [List.any_eq_true]
      exact ⟨c, hc, by simpa using hlt⟩
    · intro hne
      rw [if_neg]
      rw [List.any_eq_true]
      rintro ⟨c, hc, hlt⟩
      exact hne ⟨c, hc, by simpa using hlt⟩

/-- C4 witness: a 2×2 all-white crop has density 0 < 0.01, so the
vision-variant detector reports `(false, 0.90)`. -/
theorem C4_vision_density_policy_witness :
    vision_detect_signature smallWhiteImg ⟨0, 0, 2, 2⟩ [] = .ok (false, 9/10) := by
  apply (C4_vision_density_policy smallWhiteImg ⟨0, 0, 2, 2⟩ [] (by decide)).1
  have h1 : darkCount (visionSigPixels smallWhiteImg ⟨0, 0, 2, 2⟩) 180 = 0 := by
    decide
  unfold inkDensityVision
  rw [h1]
  norm_num

/-- C5 counterexample: on a 600×800 image the default signature region
(top 800) clips to an exact-boundary zero-pixel box and the
vision-variant detector returns `(false, 0.0)` — not the `(false, 0.5)`
the claim asserts for both variants; and on a 600×600 image the clipped
box is inverted (`bottom = 600 < 800 = top`), so the vision variant
raises instead of returning at all, refuting "never raises". -/
theorem C5_counterexample :
    vision_detect_signature shortImg signature_region [] = .ok (false, 0) ∧
    ((Except.ok (false, (0 : ℚ)) : Except Unit (Bool × ℚ)) ≠ .ok (false, 1/2)) ∧
    vision_detect_signature squareImg signature_region [] = .error () := by
  refine ⟨?_, ?_, ?_⟩
  · unfold vision_detect_signature
    rw [if_neg (by decide), if_pos (by decide)]
  · intro h
    rw [Except.ok.injEq, Prod.mk.injEq] at h
    exact absurd h.2 (by norm_num)
  · unfold vision_detect_signature
    rw [if_pos (by decide)]

/-- C5 amended: the local detector returns exactly `(false, 0.5)` when
the vertical box is degenerate (`bottom ≤ top`, checked before the crop)
and when a legal crop yields zero pixels, but raises `ValueError` when
its box is horizontally inverted (`int(0.45*width) < 10`); the
vision-variant detector returns `(false, 0.0)` on a legal zero-pixel
clipped crop and raises `ValueError` on an inverted clipped box. -/
theorem C5_degenerate_region :
    (∀ img : Img, pctFloor img.height 94 100 ≤ pctFloor img.height 82 100 →
      detect_signature_universal img = .ok (false, 1/2)) ∧
    (∀ img : Img, ¬ pctFloor img.height 94 100 ≤ pctFloor img.height 82 100 →
      pctFloor img.width 45 100 < 10 →
      detect_signature_universal img = .error ()) ∧
    (∀ img : Img, ¬ pctFloor img.width 45 100 < 10 →
      (localSigPixels img).isEmpty = true →
      detect_signature_universal img = .ok (false, 1/2)) ∧
    (∀ (img : Img) (region : RegionBox) (blocks : List ℚ),
      ((visionSigBox img region).2.2.1 < (visionSigBox img region).1 ∨
        (visionSigBox img region).2.2.2 < (visionSigBox img region).2.1) →
      vision_detect_signature img region blocks = .error ()) ∧
    (∀ (img : Img) (region : RegionBox) (blocks : List ℚ),
      ¬((visionSigBox img region).2.2.1 < (visionSigBox img region).1 ∨
        (visionSigBox img region).2.2.2 < (visionSigBox img region).2.1) →
      (visionSigPixels img region).length = 0 →
      vision_detect_signature img region blocks = .ok (false, 0)) := by
  refine ⟨?_, ?_, ?_, ?_, ?_⟩
  · intro img h
    unfold detect_signature_universal
    rw [if_pos h]
  · intro img h1 h2
    unfold detect_signature_universal
    rw [if_neg h1, if_pos h2]
  · intro img h1 h2
    unfold detect_signature_universal
    by_cases hbox : pctFloor img.height 94 100 ≤ pctFloor img.height 82 100
    · rw [if_pos hbox]
    · rw [if_neg hbox, if_neg h1, if_pos h2]
  · intro img region blocks h
    unfold vision_detect_signature
    rw [if_pos h]
  · intro img region blocks h1 h2
    unfold vision_detect_signature
    rw [if_neg h1, if_pos h2]

/-- C5 amended witness: the 100×4 image hits the degenerate vertical
box and yields `(false, 0.5)`; the 20-px-wide image hits the inverted
local crop and raises; the 600×600 image hits the inverted clipped
vision box and raises; the 600×800 image hits the legal zero-pixel
vision crop and yields `(false, 0.0)`. -/
theorem C5_degenerate_region_witness :
    detect_signature_universal flatImg = .ok (false, 1/2) ∧
    detect_signature_universal narrowImg = .error () ∧
    vision_detect_signature squareImg signature_region [] = .error () ∧
    vision_detect_signature shortImg signature_region [] = .ok (false, 0) :=
  ⟨C5_degenerate_region.1 flatImg (by decide),
   C5_degenerate_region.2.1 narrowImg (by decide) (by decide),
   C5_degenerate_region.2.2.2.1 squareImg signature_region [] (by decide),
   C5_degenerate_region.2.2.2.2 shortImg signature_region [] (by decide)
     (by decide)⟩

/-- The all-black image saturates the local detector's density at 1,
landing in the `> 0.10` branch. -/
theorem blackImg_detect :
    detect_signature_universal blackImg = .ok (true, 55/100) := by
  have h1 : darkCount (localSigPixels blackImg) 170 = 12 := by decide
  have h2 : (localSigPixels blackImg).length = 12 := by decide
  have hd : inkDensityLocal blackImg = 1 := by
    unfold inkDensityLocal
    rw [h1, h2]
    norm_num
  unfold detect_signature_universal
  rw [if_neg (by decide), if_neg (by decide), if_neg (by decide)]
  dsimp only
  rw [hd]
  norm_num

/-- C1 counterexample: `analyze` on undecodable bytes (e.g. empty bytes)
propagates the decoder's exception instead of returning a degraded
record; and on a decodable all-black image whose OCR throws, the record
it does return has `has_signature = true`, not `false`. -/
theorem C1_counterexample :
    analyze false none (.error ()) (.error ()) (.error ()) =
      .error .decodeFailure ∧
    analyze false (some blackImg) (.error ()) (.error ()) (.error ()) =
      .ok ⟨none, none, true, 55/100, none, none, true⟩ := by
  constructor
  · rfl
  · simp only [analyze, Bool.false_eq_true, if_false, analyze_local]
    rw [blackImg_detect]

/-- C1 amended: when the image decodes, both OCR calls throw, and the
signature detector returns a verdict, `analyze` returns a record with
every optional field `None`, `has_legal_text = true` and the detector's
verdict (a defined confidence); when the signature crop raises (images
narrower than 23 px) that exception propagates, and when decoding
itself throws the decoder's exception propagates. -/
theorem C1_degraded_record :
    (∀ (img : Img) (verdict : Bool × ℚ),
      detect_signature_universal img = .ok verdict →
      analyze false (some img) (.error ()) (.error ()) (.error ()) =
        .ok ⟨none, none, verdict.1, verdict.2, none, none, true⟩) ∧
    (∀ img : Img, detect_signature_universal img = .error () →
      analyze false (some img) (.error ()) (.error ()) (.error ()) =
        .error .cropFailure) ∧
    analyze false none (.error ()) (.error ()) (.error ()) =
      .error .decodeFailure := by
  refine ⟨?_, ?_, rfl⟩
  · intro img verdict h
    simp only [analyze, Bool.false_eq_true, if_false, analyze_local]
    rw [h]
  · intro img h
    simp only [analyze, Bool.false_eq_true, if_false, analyze_local]
    rw [h]

/-- C9 counterexample: on `"#12345678"` (a digit run of length 8 after
`#`) the extractor does not return `None` — the greedy bounded
repetition captures the first 7 digits. -/
theorem C9_counterexample :
    extract_ticket_number "#12345678" = some "1234567" ∧
    (some "1234567" : Option String) ≠ none := by
  exact ⟨by decide, by decide⟩

/-- C9 amended: `extract_ticket_number` returns the digits captured at
the first `#` followed by at least five digits — at most the first seven
of the run (so `"#123456"` gives `"123456"`, `"#12"` gives `None`, and
`"#12345678"` gives `"1234567"`); any returned value is a string of 5–7
digits. -/
theorem C9_ticket_number :
    extract_ticket_number "ticket #123456 end" = some "123456" ∧
    extract_ticket_number "call #12 now" = none ∧
    extract_ticket_number "#12345678" = some "1234567" ∧
    ∀ (s : String) (v : String), extract_ticket_number s = some v →
      (5 ≤ v.length ∧ v.length ≤ 7) ∧ ∀ x ∈ v.data, x.isDigit = true := by
  refine ⟨by decide, by decide, by decide, ?_⟩
  intro s v h
  unfold extract_ticket_number at h
  obtain ⟨ds, hsp, hv⟩ := Option.map_eq_some'.mp h
  obtain ⟨t, ht⟩ := searchPat_eq_some tryTicketAt s.data ds hsp
  subst hv
  unfold tryTicketAt at ht
  split at ht
  · rename_i rest
    dsimp only at ht
    split at ht
    · rename_i hlen
      cases ht
      rw [List.span_eq_take_drop] at hlen ⊢
      constructor
      · show 5 ≤ ((rest.takeWhile Char.isDigit).take 7).length ∧
          ((rest.takeWhile Char.isDigit).take 7).length ≤ 7
        rw [List.length_take]
        dsimp only at hlen
        omega
      · intro x hx
        exact List.mem_takeWhile_imp (List.mem_of_mem_take hx)
    · cases ht
  · cases ht

/-- C9 witness: the general digit-shape fact applied at
`"ticket #123456 end"`. -/
theorem C9_ticket_number_witness :
    (5 ≤ ("123456" : String).length ∧ ("123456" : String).length ≤ 7) ∧
    ∀ x ∈ ("123456" : String).data, x.isDigit = true :=
  C9_ticket_number.2.2.2 "ticket #123456 end" "123456" (by decide)

/- Support lemmas for the pattern-1 shape analysis. -/

theorem letter_not_space {c : Char} (h : isAsciiLetter c = true) :
    pyIsSpace c = false := by
  cases hpy : pyIsSpace c
  · rfl
  · exfalso
    have hc : c = ' ' ∨ c = '\t' ∨ c = '\n' ∨ c = '\x0b' ∨ c = '\x0c' ∨ c = '\r' := by
      simpa [pyIsSpace, or_assoc] using hpy
    rcases hc with rfl | rfl | rfl | rfl | rfl | rfl <;> exact absurd h (by decide)

theorem cleanStep1_id (l : List Char)
    (h : ∀ x ∈ l, isAsciiLetter x = true ∨ x = ' ') : cleanStep1 l = l := by
  induction l with
  | nil => rfl
  | cons c t ih =>
    have hc := h c (List.mem_cons_self c t)
    have h1 : (if c = '|' then 'I' else c) = c := by
      rcases hc with hl | rfl
      · rw [if_neg]; rintro rfl; exact absurd hl (by decide)
      · rfl
    have h2 : (!(c == '/' || c == '\\')) = true := by
      rcases hc with hl | rfl
      · have : c ≠ '/' ∧ c ≠ '\\' := by
          constructor <;> rintro rfl <;> exact absurd hl (by decide)
        simp [this.1, this.2]
      · decide
    have ht := ih (fun x hx => h x (List.mem_cons_of_mem c hx))
    simp only [cleanStep1, List.map_cons, h1, List.filter_cons, h2, if_true]
    simpa [cleanStep1] using ht

theorem cleanStep2_id (l : List Char)
    (h : ∀ x ∈ l, isAsciiLetter x = true ∨ x = ' ') : cleanStep2 l = l := by
  induction l with
  | nil => rfl
  | cons c t ih =>
    have hc := h c (List.mem_cons_self c t)
    have h1 : (isWordChar c || pyIsSpace c) = true := by
      rcases hc with hl | rfl
      · simp [isWordChar, hl]
      · decide
    have ht := ih (fun x hx => h x (List.mem_cons_of_mem c hx))
    simp only [cleanStep2, List.map_cons, h1, if_true]
    simpa [cleanStep2] using ht

theorem collapseWsAux_nonspace (b : Bool) (c : Char) (rest : List Char)
    (h : pyIsSpace c = false) :
    collapseWsAux b (c :: rest) = c :: collapseWsAux false rest := by
  simp [collapseWsAux, h]

theorem collapseWsAux_space (rest : List Char) :
    collapseWsAux false (' ' :: rest) = ' ' :: collapseWsAux true rest := by
  simp [collapseWsAux, show pyIsSpace ' ' = true from by decide]

theorem collapseWsAux_letters (l : List Char)
    (h : ∀ x ∈ l, isAsciiLetter x = true) (rest : List Char) :
    collapseWsAux false (l ++ rest) = l ++ collapseWsAux false rest := by
  induction l with
  | nil => rfl
  | cons c t ih =>
    rw [List.cons_append,
      collapseWsAux_nonspace false c _ (letter_not_space (h c (List.mem_cons_self c t))),
      ih (fun x hx => h x (List.mem_cons_of_mem c hx)), List.cons_append]

theorem span_append (p : Char → Bool) (l : List Char) (y : Char) (t : List Char)
    (h : ∀ x ∈ l, p x = true) (hy : p y = false) :
    (l ++ y :: t).span p = (l, y :: t) := by
  induction l with
  | nil => simp [List.span_eq_take_drop, List.takeWhile_cons, List.dropWhile_cons, hy]
  | cons c cs ih =>
    have hc := h c (List.mem_cons_self c cs)
    have iht := ih (fun x hx => h x (List.mem_cons_of_mem c hx))
    rw [List.span_eq_take_drop] at iht ⊢
    simp only [List.cons_append, List.takeWhile_cons, List.dropWhile_cons, hc,
      if_true, Prod.mk.injEq] at iht ⊢
    exact ⟨congrArg (c :: ·) iht.1, iht.2⟩

theorem span_all (p : Char → Bool) (l : List Char) (h : ∀ x ∈ l, p x = true) :
    l.span p = (l, []) := by
  induction l with
  | nil => rfl
  | cons c cs ih =>
    have hc := h c (List.mem_cons_self c cs)
    have iht := ih (fun x hx => h x (List.mem_cons_of_mem c hx))
    rw [List.span_eq_take_drop] at iht ⊢
    simp only [List.takeWhile_cons, List.dropWhile_cons, hc, if_true,
      Prod.mk.injEq] at iht ⊢
    exact ⟨congrArg (c :: ·) iht.1, iht.2⟩

theorem searchPat_head {α : Type} (f : List Char → Option α) (l : List Char)
    (v : α) (h : f l = some v) : searchPat f l = some v := by
  cases l with
  | nil => exact h
  | cons c rest => rw [searchPat, h]

theorem spanPlus_of_span (p : Char → Bool) (l a rest : List Char)
    (h : l.span p = (a, rest)) (ha : a ≠ []) : spanPlus p l = some (a, rest) := by
  cases a with
  | nil => exact absurd rfl ha
  | cons x xs =>
    simp only [spanPlus, h]
    rfl

/-- Pattern 1 succeeds at the start of a text of the exact shape
`by <name> <initial> <role>` (letters only, single spaces), capturing
the three groups. -/
theorem tryP1At_shape (f : List Char) (c : Char) (r : List Char)
    (hf : ∀ x ∈ f, isAsciiLetter x = true) (hf2 : 2 ≤ f.length)
    (hc : isAsciiLetter c = true)
    (hr : ∀ x ∈ r, isAsciiLetter x = true) (hr2 : 2 ≤ r.length) :
    tryP1At ('b' :: 'y' :: ' ' :: (f ++ ' ' :: c :: ' ' :: r)) =
      some (f, c, r) := by
  obtain ⟨f0, ftl, rfl⟩ : ∃ f0 ftl, f = f0 :: ftl := by
    cases f with
    | nil => simp at hf2
    | cons a t => exact ⟨a, t, rfl⟩
  obtain ⟨r0, r1, rtl, rfl⟩ : ∃ r0 r1 rtl, r = r0 :: r1 :: rtl := by
    cases r with
    | nil => simp at hr2
    | cons a t =>
      cases t with
      | nil => simp at hr2
      | cons b u => exact ⟨a, b, u, rfl⟩
  have hf0 := hf f0 (List.mem_cons_self _ _)
  have hr0 := hr r0 (List.mem_cons_self _ _)
  have h1 : spanPlus pyIsSpace (' ' :: (f0 :: ftl ++ ' ' :: c :: ' ' :: (r0 :: r1 :: rtl))) =
      some ([' '], f0 :: ftl ++ ' ' :: c :: ' ' :: (r0 :: r1 :: rtl)) :=
    spanPlus_of_span _ _ _ _
      (span_append pyIsSpace [' '] f0 (ftl ++ ' ' :: c :: ' ' :: (r0 :: r1 :: rtl))
        (by decide) (letter_not_space hf0)) (by simp)
  have h2 : spanPlus isAsciiLetter (f0 :: ftl ++ ' ' :: c :: ' ' :: (r0 :: r1 :: rtl)) =
      some (f0 :: ftl, ' ' :: c :: ' ' :: (r0 :: r1 :: rtl)) :=
    spanPlus_of_span _ _ _ _
      (span_append isAsciiLetter (f0 :: ftl) ' ' (c :: ' ' :: (r0 :: r1 :: rtl))
        hf (by decide)) (by simp)
  have h3 : spanPlus pyIsSpace (' ' :: c :: ' ' :: (r0 :: r1 :: rtl)) =
      some ([' '], c :: ' ' :: (r0 :: r1 :: rtl)) :=
    spanPlus_of_span _ _ _ _
      (span_append pyIsSpace [' '] c (' ' :: (r0 :: r1 :: rtl))
        (by decide) (letter_not_space hc)) (by simp)
  have h4 : spanPlus pyIsSpace (' ' :: (r0 :: r1 :: rtl)) =
      some ([' '], r0 :: r1 :: rtl) :=
    spanPlus_of_span _ _ _ _
      (span_append pyIsSpace [' '] r0 (r1 :: rtl)
        (by decide) (letter_not_space hr0)) (by simp)
  have hrole : roleRun (r0 :: r1 :: rtl) = some (r0 :: r1 :: rtl) := by
    have hsp := span_all isAsciiLetter (r0 :: r1 :: rtl) hr
    unfold roleRun
    rw [hsp]
    dsimp only
    rw [if_pos (by simp)]
  have hf2' : ¬ (f0 :: ftl).length < 2 := by omega
  have hafter : ∀ rtl2 : List Char, (∀ x ∈ rtl2, isAsciiLetter x = true) →
      (spanPlus pyIsSpace rtl2).map (fun s : List Char × List Char => s.2) = none := by
    intro rtl2 h2'
    cases rtl2 with
    | nil => rfl
    | cons x xs =>
      have hx : pyIsSpace x = false :=
        letter_not_space (h2' x (List.mem_cons_self _ _))
      simp [spanPlus, List.span_eq_take_drop, List.takeWhile_cons, hx]
  rw [tryP1At]
  rw [show matchByPrefix ('b' :: 'y' :: ' ' :: (f0 :: ftl ++ ' ' :: c :: ' ' :: (r0 :: r1 :: rtl))) =
    some (' ' :: (f0 :: ftl ++ ' ' :: c :: ' ' :: (r0 :: r1 :: rtl))) from rfl]
  dsimp only
  rw [h1]
  dsimp only
  rw [h2]
  dsimp only
  rw [if_neg hf2', h3]
  dsimp only
  rw [if_pos hc, h4]
  dsimp only
  by_cases hld : r0.toLower = 'l' ∧ r1.toLower = 'd'
  · rw [if_pos hld, hafter rtl (fun x hx => hr x (by simp [hx])), hrole]
    rfl
  · rw [if_neg hld, hrole]
    rfl

/-- The cleanup pipeline is the identity on a text made of ASCII letters
and isolated single spaces. -/
theorem cleanText_shape (f : List Char) (c : Char) (r : List Char)
    (hf : ∀ x ∈ f, isAsciiLetter x = true) (hf2 : 1 ≤ f.length)
    (hc : isAsciiLetter c = true)
    (hr : ∀ x ∈ r, isAsciiLetter x = true) (hr2 : 1 ≤ r.length) :
    cleanText ('b' :: 'y' :: ' ' :: (f ++ ' ' :: c :: ' ' :: r)) =
      'b' :: 'y' :: ' ' :: (f ++ ' ' :: c :: ' ' :: r) := by
  obtain ⟨f0, ftl, rfl⟩ : ∃ f0 ftl, f = f0 :: ftl := by
    cases f with
    | nil => simp at hf2
    | cons a t => exact ⟨a, t, rfl⟩
  obtain ⟨r0, rtl, rfl⟩ : ∃ r0 rtl, r = r0 :: rtl := by
    cases r with
    | nil => simp at hr2
    | cons a t => exact ⟨a, t, rfl⟩
  have hok : ∀ x ∈ 'b' :: 'y' :: ' ' :: (f0 :: ftl ++ ' ' :: c :: ' ' :: (r0 :: rtl)),
      isAsciiLetter x = true ∨ x = ' ' := by
    intro x hx
    rcases List.mem_cons.mp hx with rfl | hx
    · exact Or.inl (by decide)
    rcases List.mem_cons.mp hx with rfl | hx
    · exact Or.inl (by decide)
    rcases List.mem_cons.mp hx with rfl | hx
    · exact Or.inr rfl
    rcases List.mem_append.mp hx with hx | hx
    · exact Or.inl (hf x hx)
    rcases List.mem_cons.mp hx with rfl | hx
    · exact Or.inr rfl
    rcases List.mem_cons.mp hx with rfl | hx
    · exact Or.inl hc
    rcases List.mem_cons.mp hx with rfl | hx
    · exact Or.inr rfl
    exact Or.inl (hr x hx)
  unfold cleanText
  rw [cleanStep1_id _ hok, cleanStep2_id _ hok]
  show collapseWsAux false _ = _
  rw [collapseWsAux_nonspace false 'b' _ (by decide),
    collapseWsAux_nonspace false 'y' _ (by decide),
    collapseWsAux_space,
    show (f0 :: ftl ++ ' ' :: c :: ' ' :: (r0 :: rtl)) =
      f0 :: (ftl ++ ' ' :: c :: ' ' :: (r0 :: rtl)) from rfl,
    collapseWsAux_nonspace true f0 _
      (letter_not_space (hf f0 (List.mem_cons_self _ _))),
    collapseWsAux_letters ftl (fun x hx => hf x (List.mem_cons_of_mem _ hx)),
    collapseWsAux_space,
    collapseWsAux_nonspace true c _ (letter_not_space hc),
    collapseWsAux_space,
    collapseWsAux_nonspace true r0 _
      (letter_not_space (hr r0 (List.mem_cons_self _ _))),
    show rtl = rtl ++ [] from (List.append_nil rtl).symm,
    collapseWsAux_letters rtl (fun x hx => hr x (List.mem_cons_of_mem _ (by simpa using hx)))]
  simp [collapseWsAux]

/-- C8 counterexample: a one-letter first name does not match any of
the patterns — group 1 is `[A-Z][a-z]+`, i.e. two or more letters — so
the extractor returns `(None, None)` on `"by A B Technician"`, not
`("A B", "Technician")`. -/
theorem C8_counterexample :
    extract_technician "by A B Technician" = (none, none) ∧
    ((none, none) : Option String × Option String) ≠
      (some "A B", some "Technician") := by
  exact ⟨by decide, by decide⟩

/-- C8 amended: patterns are tried in order, case-insensitively, first
match winning; pattern 1 matches `by <FirstName> <LastInitial> [Ld]
<Role>` with *two* or more letters for the first name, a single-letter
initial, an optional skipped `Ld` token and a role word of two or more
letters, returning the title-cased first name, the upper-cased initial
and the role as matched; in particular `"by John D Technician"` yields
`("John D", "Technician")`. -/
theorem C8_pattern1_extraction :
    extract_technician "by John D Technician" =
      (some "John D", some "Technician") ∧
    ∀ (f : List Char) (c : Char) (r : List Char),
      (∀ x ∈ f, isAsciiLetter x = true) → 2 ≤ f.length →
      isAsciiLetter c = true →
      (∀ x ∈ r, isAsciiLetter x = true) → 2 ≤ r.length →
      extract_technician ⟨'b' :: 'y' :: ' ' :: (f ++ ' ' :: c :: ' ' :: r)⟩ =
        (some ⟨pyTitle f ++ [' ', c.toUpper]⟩, some ⟨r⟩) := by
  constructor
  · decide
  · intro f c r hf hf2 hc hr hr2
    unfold extract_technician
    dsimp only
    rw [cleanText_shape f c r hf (by omega) hc hr (by omega),
      searchPat_head tryP1At _ _ (tryP1At_shape f c r hf hf2 hc hr hr2)]

/-- C8 witness: the general pattern-1 statement applied at
`"by John D Tech"`. -/
theorem C8_pattern1_extraction_witness :
    extract_technician
        ⟨'b' :: 'y' :: ' ' ::
          (['J', 'o', 'h', 'n'] ++ ' ' :: 'D' :: ' ' :: ['T', 'e', 'c', 'h'])⟩ =
      (some ⟨pyTitle ['J', 'o', 'h', 'n'] ++ [' ', Char.toUpper 'D']⟩,
        some ⟨['T', 'e', 'c', 'h']⟩) :=
  C8_pattern1_extraction.2 ['J', 'o', 'h', 'n'] 'D' ['T', 'e', 'c', 'h']
    (by decide) (by decide) (by decide) (by decide) (by decide)

/-- C1 amended witness: the degraded-record equation at the all-white
image (whose detector returns `(false, 0.92)`) and the crop-error
propagation at the 20-px-wide image. -/
theorem C1_degraded_record_witness :
    analyze false (some whiteImg) (.error ()) (.error ()) (.error ()) =
      .ok ⟨none, none, false, 92/100, none, none, true⟩ ∧
    analyze false (some narrowImg) (.error ()) (.error ()) (.error ()) =
      .error .cropFailure :=
  ⟨C1_degraded_record.1 whiteImg (false, 92/100) whiteImg_detect,
   C1_degraded_record.2.1 narrowImg narrowImg_detect⟩

/-- C10 witness: the confidence-range fact applied to the verdict the
all-white image actually produces. -/
theorem C10_local_confidence_range_witness :
    (((false, 92/100) : Bool × ℚ).2 = 1/2 ∨
     ((false, 92/100) : Bool × ℚ).2 = 55/100 ∨
     ((false, 92/100) : Bool × ℚ).2 = 72/100 ∨
     ((false, 92/100) : Bool × ℚ).2 = 88/100 ∨
     ((false, 92/100) : Bool × ℚ).2 = 92/100) ∧
    1/2 ≤ (((false, 92/100) : Bool × ℚ)).2 :=
  C10_local_confidence_range whiteImg (false, 92/100) whiteImg_detect

end SDTicket
